import Mathlib

/-!
Verification development for `pulpsolv.py`: a shallow embedding of the
unit-to-solvable conversion framework (field projectors, the EVR identity,
dependency-expression compilation), the unit/solvable identity mapping with
its repo loader, and the `optimist` visited-set dependency walk, together
with theorems settling the specification claims.

Conventions of the embedding:
* Python values flowing through the attribute converters are modelled by
  `PyVal` (`none` covers both an absent attribute and an explicit `None`,
  since `attr_conversion` reads with default `None`); Python truthiness is
  `PyVal.truthy`.
* `bytes` produced by `.encode('utf-8')` are modelled as `String`.
* A Python exception is modelled as `Option.none` for pure helpers, and as
  `Except.error s` (carrying the solvable state built so far) for the
  stateful attribute steps, since the source mutates objects in place and an
  exception leaves the mutations already performed.
* libsolv integer constants (`SOLVABLE_*` knownids, `REL_*` flags) keep
  their numeric values from libsolv's `knownid.h` / `pool.h`.
-/

namespace PulpSolv

/-- A Python value as read off a unit record: `None` (also used for an
absent attribute, because `attr_conversion` defaults to `None`), a string,
or an integer. -/
inductive PyVal where
  | none
  | str (s : String)
  | int (n : Int)
deriving DecidableEq, Repr

/-- Python truthiness of a `PyVal`: `None`, `''` and `0` are falsy. -/
def PyVal.truthy : PyVal → Bool
  | .none => false
  | .str s => s != ""
  | .int n => n != 0

/-- Python `'{}'.format(v)` on a `PyVal`. -/
def PyVal.format : PyVal → String
  | .none => "None"
  | .str s => s
  | .int n => toString n

/-- `utf8_conversion` applied to a value: `ret.encode('utf-8')` when the
value is not `None` (identity on our `String` model of `bytes`), `None`
passed through, and a non-string value raises (`int` has no `encode`). -/
def utf8_conversion_val : PyVal → Option (Option String)
  | .none => some Option.none
  | .str s => some (some s)
  | .int _ => Option.none

/-- `evr_unit_conversion`: build the `epoch:version-release` string from the
three raw fields. Returns `None` when `version` is `None`; the `epoch:`
prefix and `-release` suffix are included only when the field is truthy
(`if epoch else ''` in the source), not merely present. The surrounding
`utf8_conversion` is the identity here because the result is a string. -/
def evr_unit_conversion (epoch version release : PyVal) : Option String :=
  if version = PyVal.none then Option.none
  else some ((if epoch.truthy then epoch.format ++ ":" else "")
    ++ version.format
    ++ (if release.truthy then "-" ++ release.format else ""))

/-- Modelled from the spec's words (for comparing a refinement claim with
the source): the EVR string with the `epoch:` prefix and `-release` suffix
omitted exactly when the field is absent (`None`), rather than when it is
falsy. -/
def evr_by_presence_spec (epoch version release : PyVal) : Option String :=
  if version = PyVal.none then Option.none
  else some ((if epoch ≠ PyVal.none then epoch.format ++ ":" else "")
    ++ version.format
    ++ (if release ≠ PyVal.none then "-" ++ release.format else ""))

/-! libsolv constants.  Numeric values follow libsolv's `knownid.h` (the
`SOLVABLE_*` keyname ids) and `pool.h` (the `REL_*` relation flags); only
their distinctness and the `REL_` bit structure matter here. -/

def SOLVABLE_NAME : Nat := 2
def SOLVABLE_ARCH : Nat := 3
def SOLVABLE_EVR : Nat := 4
def SOLVABLE_VENDOR : Nat := 5
def SOLVABLE_PROVIDES : Nat := 6
def SOLVABLE_OBSOLETES : Nat := 7
def SOLVABLE_CONFLICTS : Nat := 8
def SOLVABLE_REQUIRES : Nat := 9
def SOLVABLE_RECOMMENDS : Nat := 10
def SOLVABLE_SUGGESTS : Nat := 11
def SOLVABLE_SUPPLEMENTS : Nat := 12
def SOLVABLE_ENHANCES : Nat := 13
def SOLVABLE_FILELIST : Nat := 18

def REL_GT : Nat := 1
def REL_EQ : Nat := 2
def REL_LT : Nat := 4
def REL_AND : Nat := 16
def REL_OR : Nat := 17
def REL_WITH : Nat := 18
def REL_NAMESPACE : Nat := 19
def REL_ARCH : Nat := 20
def REL_COND : Nat := 22
def REL_ELSE : Nat := 26
def REL_WITHOUT : Nat := 28
def REL_UNLESS : Nat := 29

/-- Python `str.startswith`, implemented over the character list so that
concrete runs reduce inside the kernel. -/
def py_startswith (s pre : String) : Bool :=
  pre.data.isPrefixOf s.data

/-- Python `str.upper` for the ASCII slot names the source formats into
`SOLVABLE_*` attribute lookups, implemented over the character list. -/
def py_upper (s : String) : String :=
  ⟨s.data.map Char.toUpper⟩

/-- `getattr(solv, 'SOLVABLE_' + name)` for the dependency-slot keynames:
the dynamic attribute lookup modelled as a finite table keyed by the
upper-cased slot name; `Option.none` is the `AttributeError`. -/
def solv_SOLVABLE_lookup : String → Option Nat := fun s =>
  if s = "NAME" then some SOLVABLE_NAME
  else if s = "ARCH" then some SOLVABLE_ARCH
  else if s = "EVR" then some SOLVABLE_EVR
  else if s = "VENDOR" then some SOLVABLE_VENDOR
  else if s = "PROVIDES" then some SOLVABLE_PROVIDES
  else if s = "OBSOLETES" then some SOLVABLE_OBSOLETES
  else if s = "CONFLICTS" then some SOLVABLE_CONFLICTS
  else if s = "REQUIRES" then some SOLVABLE_REQUIRES
  else if s = "RECOMMENDS" then some SOLVABLE_RECOMMENDS
  else if s = "SUGGESTS" then some SOLVABLE_SUGGESTS
  else if s = "SUPPLEMENTS" then some SOLVABLE_SUPPLEMENTS
  else if s = "ENHANCES" then some SOLVABLE_ENHANCES
  else if s = "FILELIST" then some SOLVABLE_FILELIST
  else Option.none

/-- `getattr(solv, 'REL_' + token)`: the dynamic relation-flag lookup
modelled as a finite table over libsolv's `REL_*` names;
`Option.none` is the `AttributeError` for an unknown token. -/
def solv_REL_lookup : String → Option Nat := fun s =>
  if s = "GT" then some REL_GT
  else if s = "EQ" then some REL_EQ
  else if s = "LT" then some REL_LT
  else if s = "AND" then some REL_AND
  else if s = "OR" then some REL_OR
  else if s = "WITH" then some REL_WITH
  else if s = "NAMESPACE" then some REL_NAMESPACE
  else if s = "ARCH" then some REL_ARCH
  else if s = "COND" then some REL_COND
  else if s = "ELSE" then some REL_ELSE
  else if s = "WITHOUT" then some REL_WITHOUT
  else if s = "UNLESS" then some REL_UNLESS
  else Option.none

/-- A libsolv dependency value as constructed by the source: `pool.Dep(name)`,
`dep.Rel(flags, pool.Dep(evr))` (the evr argument recorded as passed, so a
`None` evr is representable), `pool.parserpmrichdep(string)`, and
`pool.Dep(None)` for completeness. -/
inductive Dep where
  | dep (n : String)
  | rel (base : Dep) (flags : Nat) (evr : Option String)
  | rich (expr : String)
  | pyNone
deriving DecidableEq, Repr

/-- The solvable under construction.  `name`/`evr`/`arch`/`vendor` are the
attributes set by `setattr`; `deps` is the ordered list of
`add_deparray(keyname, dep)` calls; `filelist` records the
`repodata.add_dirstr(solvable.id, SOLVABLE_FILELIST, dirname, basename)`
entries (they live in the repo's repodata in libsolv, keyed by the
solvable id; keeping them on the solvable here loses nothing since the key
is the solvable's own id). -/
structure Solvable where
  id : Nat
  name : Option String
  evr : Option String
  arch : Option String
  vendor : Option String
  deps : List (Nat × Dep)
  filelist : List (String × String)
deriving DecidableEq, Repr

/-- A fresh solvable as returned by `solv_repo.add_solvable()`. -/
def emptySolvable (sid : Nat) : Solvable :=
  ⟨sid, Option.none, Option.none, Option.none, Option.none, [], []⟩

/-- `setattr(solvable, attr_name, value)` for the attribute names the
source actually sets (`name`, `evr`, `arch`, `vendor`). -/
def Solvable.setattr (s : Solvable) (attr : String) (v : String) : Solvable :=
  if attr = "name" then { s with name := some v }
  else if attr = "evr" then { s with evr := some v }
  else if attr = "arch" then { s with arch := some v }
  else if attr = "vendor" then { s with vendor := some v }
  else s

/-- `getattr(solvable, attr_name, None)` for the same attribute names. -/
def Solvable.getattr (s : Solvable) (attr : String) : Option String :=
  if attr = "name" then s.name
  else if attr = "evr" then s.evr
  else if attr = "arch" then s.arch
  else if attr = "vendor" then s.vendor
  else Option.none

/-- `solvable.add_deparray(keyname, dep)`. -/
def addDeparray (s : Solvable) (keyname : Nat) (d : Dep) : Solvable :=
  { s with deps := s.deps ++ [(keyname, d)] }

/-- `dependency_key or getattr(solv, 'SOLVABLE_' + attr_name.upper())`
from `rpm_dependency_conversion` (the keyname is always a nonzero id, so
`or` picks the explicit key exactly when one is passed). -/
def resolve_keyname (dependency_key : Option Nat) (attr_name : String) : Option Nat :=
  match dependency_key with
  | some k => some k
  | Option.none => solv_SOLVABLE_lookup (py_upper attr_name)

/-- The flags-token translation inside `rpm_dependency_conversion`:
`EQ`/`LT`/`GT` map to the corresponding `REL_*` flag, `LE`/`GE` to the
bitwise disjunction with `REL_EQ`, and any other token falls through to
`getattr(solv, 'REL_' + '...'.format(unit_flags))`. -/
def rel_flags_of (unit_flags : PyVal) : Option Nat :=
  if unit_flags = PyVal.str "EQ" then some REL_EQ
  else if unit_flags = PyVal.str "LT" then some REL_LT
  else if unit_flags = PyVal.str "GT" then some REL_GT
  else if unit_flags = PyVal.str "LE" then some (REL_EQ ||| REL_LT)
  else if unit_flags = PyVal.str "GE" then some (REL_EQ ||| REL_GT)
  else solv_REL_lookup unit_flags.format

/-- `rpm_dependency_conversion` after `multiattr_conversion` has extracted
`unit_name`, `unit_flags` and `unit_evr` from the dependency record.
Mirrors the source control flow: the keyname is resolved first; a name
beginning with `(` takes the rich branch, where `pool.parserpmrichdep`
builds a dep that is never registered because the
`solvable.add_deparray(keyname, dep)` line sits inside the generic `else`
branch; a generic name builds `pool.Dep(name)`, wraps it in a
`Rel(flags, pool.Dep(evr))` when the flags value is truthy, and registers
it.  `Option.none` models an exception (unknown keyname or unknown flags
token). -/
def rpm_dependency_conversion (solvable : Solvable) (unit_name : String)
    (unit_flags : PyVal) (unit_evr : Option String)
    (attr_name : String) (dependency_key : Option Nat) : Option Solvable :=
  match resolve_keyname dependency_key attr_name with
  | Option.none => Option.none
  | some keyname =>
    if py_startswith unit_name "(" then
      some solvable
    else
      if unit_flags.truthy then
        match rel_flags_of unit_flags with
        | Option.none => Option.none
        | some rel_flags =>
          some (addDeparray solvable keyname
            (Dep.rel (Dep.dep unit_name) rel_flags unit_evr))
      else
        some (addDeparray solvable keyname (Dep.dep unit_name))

/-- A dependency record: the nested dict stored in a unit's dependency
slots, read by `attr_conversion` with default `None` per field. -/
structure DepRecord where
  name : PyVal
  epoch : PyVal
  version : PyVal
  release : PyVal
  flags : PyVal
deriving DecidableEq, Repr

/-- A content unit, with the attributes the factories read.  Scalar
attributes are `PyVal` (absent = `PyVal.none`, the `attr_conversion`
default); dependency slots are lists of records (default `[]`); `files`
models `unit.files.get('file')` (the unit's `files` dict is assumed
present, as guaranteed by the unit query's field list). -/
structure CUnit where
  id : String
  type_id : String
  name : PyVal
  epoch : PyVal
  version : PyVal
  release : PyVal
  arch : PyVal
  vendor : PyVal
  errata_id : PyVal
  errata_from : PyVal
  requires : List DepRecord
  provides : List DepRecord
  conflicts : List DepRecord
  obsoletes : List DepRecord
  recommends : List DepRecord
  suggests : List DepRecord
  supplements : List DepRecord
  enhances : List DepRecord
  rpm_search_dicts : List DepRecord
  files : Option (List String)
deriving DecidableEq, Repr

/-- A unit with every attribute absent or empty. -/
def emptyUnit : CUnit :=
  ⟨"", "", PyVal.none, PyVal.none, PyVal.none, PyVal.none, PyVal.none, PyVal.none,
    PyVal.none, PyVal.none, [], [], [], [], [], [], [], [], [], Option.none⟩

/-- `attr_conversion(attr_name)` on a unit for the scalar attributes the
source reads (default `None`). -/
def CUnit.getPyAttr (u : CUnit) (attr : String) : PyVal :=
  if attr = "name" then u.name
  else if attr = "epoch" then u.epoch
  else if attr = "version" then u.version
  else if attr = "release" then u.release
  else if attr = "arch" then u.arch
  else if attr = "vendor" then u.vendor
  else if attr = "errata_id" then u.errata_id
  else if attr = "errata_from" then u.errata_from
  else PyVal.none

/-- `attr_conversion(attr_name, default=[])` on a unit for the dependency
slots. -/
def CUnit.getDepList (u : CUnit) (attr : String) : List DepRecord :=
  if attr = "requires" then u.requires
  else if attr = "provides" then u.provides
  else if attr = "conflicts" then u.conflicts
  else if attr = "obsoletes" then u.obsoletes
  else if attr = "recommends" then u.recommends
  else if attr = "suggests" then u.suggests
  else if attr = "supplements" then u.supplements
  else if attr = "enhances" then u.enhances
  else if attr = "rpm_search_dicts" then u.rpm_search_dicts
  else []

/-- One attribute-factory step `(solvable, unit) -> None` run against the
solvable under construction; `Except.error s` models a raised exception
with `s` the solvable state at the raise point (in-place mutations done by
earlier steps and earlier records are kept, matching Python). -/
abbrev AttrStep := Solvable → CUnit → Except Solvable Solvable

/-- `setattr_conversion(target)(utf8_conversion(attr_conversion(source)()))`:
read `source` from the unit, utf8-encode it, and set it on the solvable as
`target` unless it was `None`.  `plain_attribute_factory(a)` is the
`target = source = a` case; the erratum factory renames (`errata_id` to
`name`, `errata_from` to `vendor`). -/
def renamed_attribute_factory (target source : String) : AttrStep := fun s u =>
  match utf8_conversion_val (u.getPyAttr source) with
  | Option.none => Except.error s
  | some Option.none => Except.ok s
  | some (some v) => Except.ok (s.setattr target v)

/-- `plain_attribute_factory(attr_name)` from the source. -/
def plain_attribute_factory (attr_name : String) : AttrStep :=
  renamed_attribute_factory attr_name attr_name

/-- `evr_attribute = setattr_conversion('evr')(evr_unit_conversion)`:
assemble the EVR from the unit's `epoch`/`version`/`release` and set it,
skipping the `setattr` when the conversion returned `None`. -/
def evr_attribute : AttrStep := fun s u =>
  Except.ok (match evr_unit_conversion u.epoch u.version u.release with
    | Option.none => s
    | some e => s.setattr "evr" e)

/-- The per-record body of `rpm_dependency_attribute_factory`:
`multiattr_conversion` extracts the record's `name` (utf8-encoded),
`flags`, and EVR (via `evr_unit_conversion`), then calls
`rpm_dependency_conversion`.  A non-string or `None` record name raises
(`None.startswith` / `int.encode`). -/
def rpm_dependency_record_conversion (s : Solvable) (dr : DepRecord)
    (attr_name : String) (dependency_key : Option Nat) : Option Solvable :=
  match utf8_conversion_val dr.name with
  | Option.none => Option.none
  | some nameOpt =>
    match nameOpt with
    | Option.none => Option.none
    | some unit_name =>
      rpm_dependency_conversion s unit_name dr.flags
        (evr_unit_conversion dr.epoch dr.version dr.release)
        attr_name dependency_key

/-- `rpm_dependency_attribute_factory(attribute_name, dependency_key)`:
`repeated_attr_conversion` over the unit's dependency slot, converting each
record in order; an exception keeps the deps registered so far. -/
def rpm_dependency_attribute_factory (attribute_name : String)
    (dependency_key : Option Nat) : AttrStep := fun s u =>
  (u.getDepList attribute_name).foldlM
    (fun s' dr =>
      match rpm_dependency_record_conversion s' dr attribute_name dependency_key with
      | some s'' => Except.ok s''
      | Option.none => Except.error s') s

/-- `os.path.dirname` restricted to the simple `a/b/c` paths that occur in
rpm filelists (trailing-slash normalisation of pathological paths is not
modelled; nothing here depends on it). -/
def path_dirname (p : String) : String :=
  let parts := p.splitOn "/"
  if parts.length ≤ 1 then "" else String.intercalate "/" parts.dropLast

/-- `os.path.basename` under the same restriction. -/
def path_basename (p : String) : String :=
  ((p.splitOn "/").getLastD "")

/-- `rpm_filelist_conversion`: register each file of `unit.files['file']`
as a (dirname, basename) entry; a `None` or empty list is skipped. -/
def rpm_filelist_conversion : AttrStep := fun s u =>
  Except.ok (match u.files with
    | Option.none => s
    | some [] => s
    | some fs =>
      { s with filelist := s.filelist ++ fs.map (fun f => (path_dirname f, path_basename f)) })

/-- A unit-to-solvable factory `(solv_repo, unit) -> solvable`; the repo is
represented by the solvable id it allocates for `add_solvable()`. -/
abbrev Factory := Nat → CUnit → Except Solvable Solvable

/-- `unit_solvable_converter`: allocate a fresh solvable and run the
attribute factories against it in order; an exception propagates with the
mutations performed so far. -/
def unit_solvable_converter (attribute_factories : List AttrStep) : Factory :=
  fun sid u => attribute_factories.foldlM (fun s f => f s u) (emptySolvable sid)

/-- `rpm_unit_solvable_factory` with its declared step order. -/
def rpm_unit_solvable_factory : Factory :=
  unit_solvable_converter [
    plain_attribute_factory "name",
    evr_attribute,
    plain_attribute_factory "arch",
    plain_attribute_factory "vendor",
    rpm_dependency_attribute_factory "requires" Option.none,
    rpm_dependency_attribute_factory "conflicts" Option.none,
    rpm_dependency_attribute_factory "provides" Option.none,
    rpm_dependency_attribute_factory "obsoletes" Option.none,
    rpm_dependency_attribute_factory "recommends" Option.none,
    rpm_dependency_attribute_factory "suggests" Option.none,
    rpm_dependency_attribute_factory "supplements" Option.none,
    rpm_dependency_attribute_factory "enhances" Option.none,
    rpm_filelist_conversion]

/-- `nonproviding_sovlable_factory(rel_attr_name)` (source spelling kept):
wrap a factory so the produced solvable provides itself, refined by a
`REL_EQ` relationship against `getattr(solvable, rel_attr_name, None)`
when that attribute value is truthy. -/
def nonproviding_sovlable_factory (rel_attr_name : String) (fn : Factory) : Factory :=
  fun sid u =>
    match fn sid u with
    | Except.error s => Except.error s
    | Except.ok solvable =>
      let dep := match solvable.name with
        | some n => Dep.dep n
        | Option.none => Dep.pyNone
      let rel : Option String :=
        if rel_attr_name ≠ "" then solvable.getattr rel_attr_name else Option.none
      let dep := match rel with
        | some r => if r ≠ "" then Dep.rel dep REL_EQ (some r) else dep
        | Option.none => dep
      Except.ok (addDeparray solvable SOLVABLE_PROVIDES dep)

/-- The base (unwrapped) erratum converter with its declared step order:
`name` from `errata_id`, constant `arch` `'noarch'`, `vendor` from
`errata_from`, the EVR attribute, and the `rpm_search_dicts` records
registered under the explicit `SOLVABLE_RECOMMENDS` key. -/
def erratum_base : Factory :=
  unit_solvable_converter [
    renamed_attribute_factory "name" "errata_id",
    (fun s _ => Except.ok (s.setattr "arch" "noarch")),
    renamed_attribute_factory "vendor" "errata_from",
    evr_attribute,
    rpm_dependency_attribute_factory "rpm_search_dicts" (some SOLVABLE_RECOMMENDS)]

/-- `erratum_solvable_factory = nonproviding_sovlable_factory('evr')(...)`. -/
def erratum_solvable_factory : Factory :=
  nonproviding_sovlable_factory "evr" erratum_base

/-- `srpm_sovable_factory` (source spelling kept). -/
def srpm_sovable_factory : Factory :=
  unit_solvable_converter [
    plain_attribute_factory "name",
    evr_attribute,
    plain_attribute_factory "arch",
    plain_attribute_factory "vendor",
    rpm_dependency_attribute_factory "requires" Option.none,
    rpm_dependency_attribute_factory "conflicts" Option.none]

/-- A key of the `UnitSolvableMapping.mapping` dict: the dict mixes string
unit ids (`unit.id`) and integer solvable ids (`solvable.id`), which can
never collide, so the key space is a sum. -/
inductive MKey where
  | kUnit (uid : String)
  | kSolv (sid : Nat)
deriving DecidableEq, Repr

/-- A value of the mapping dict: a solvable (under a unit-id key) or a unit
(under a solvable-id key). -/
inductive MVal where
  | vSolv (s : Solvable)
  | vUnit (u : CUnit)
deriving DecidableEq, Repr

/-- The mapping dict, as an insertion-ordered association list with unique
keys. -/
abbrev Mapping := List (MKey × MVal)

/-- `dict.get`. -/
def lookupM (m : Mapping) (k : MKey) : Option MVal :=
  (m.find? (fun p => p.1 = k)).map Prod.snd

/-- `dict.setdefault(k, v)`: insert only when the key is absent. -/
def setdefaultM (m : Mapping) (k : MKey) (v : MVal) : Mapping :=
  if (lookupM m k).isSome then m else m ++ [(k, v)]

/-- A solv.Repo: its solvables (in creation order) and the number of
`internalize()` calls on its repodata (`add_repodata` on creation,
`first_repodata` on reuse). -/
structure Repo where
  solvables : List (Nat × Solvable)
  internalize_count : Nat
deriving DecidableEq, Repr

/-- The `UnitSolvableMapping` object: the type-id-to-factory table, the
pool's id allocator and installed-repo designation, the per-name repo dict
(`self.repos`, which mirrors the pool's repos), and the bidirectional
mapping dict. -/
structure UnitSolvableMapping where
  type_factory_mapping : List (String × Factory)
  nextSolvId : Nat
  repos : List (String × Repo)
  installed : Option String
  mapping : Mapping

/-- `self.type_factory_mapping[unit.type_id]` (`Option.none` is the
`KeyError`). -/
def lookupFactory (tfm : List (String × Factory)) (type_id : String) : Option Factory :=
  (tfm.find? (fun p => p.1 = type_id)).map Prod.snd

/-- `UnitSolvableMapping._register`: two independent `setdefault` calls,
one per lookup direction. -/
def UnitSolvableMapping._register (m : UnitSolvableMapping) (u : CUnit)
    (s : Solvable) : UnitSolvableMapping :=
  let m2 := setdefaultM m.mapping (MKey.kUnit u.id) (MVal.vSolv s)
  { m with mapping := setdefaultM m2 (MKey.kSolv s.id) (MVal.vUnit u) }

/-- `get_unit(solvable)`: reverse lookup through the mapping dict. -/
def UnitSolvableMapping.get_unit (m : UnitSolvableMapping) (s : Solvable) : Option CUnit :=
  match lookupM m.mapping (MKey.kSolv s.id) with
  | some (MVal.vUnit u) => some u
  | _ => Option.none

/-- `get_solvable(unit)`: forward lookup through the mapping dict. -/
def UnitSolvableMapping.get_solvable (m : UnitSolvableMapping) (u : CUnit) : Option Solvable :=
  match lookupM m.mapping (MKey.kUnit u.id) with
  | some (MVal.vSolv s) => some s
  | _ => Option.none

/-- The repo-dict prologue of `add_repo_units`: reuse the repo under this
name or `pool.add_repo` a fresh one (with a fresh repodata). -/
def UnitSolvableMapping.ensure_repo (m : UnitSolvableMapping) (repo_name : String) :
    UnitSolvableMapping :=
  if ((m.repos.find? (fun p => p.1 = repo_name)).isSome) then m
  else { m with repos := m.repos ++ [(repo_name, ⟨[], 0⟩)] }

/-- Apply `f` to the repo registered under `repo_name`. -/
def updateRepo (rs : List (String × Repo)) (repo_name : String) (f : Repo → Repo) :
    List (String × Repo) :=
  rs.map (fun p => if p.1 = repo_name then (p.1, f p.2) else p)

/-- Record a freshly created solvable in the named repo and advance the
pool's id allocator (`repo.add_solvable()` happened inside the factory). -/
def UnitSolvableMapping.addSolvable (m : UnitSolvableMapping) (repo_name : String)
    (s : Solvable) : UnitSolvableMapping :=
  { m with
    nextSolvId := m.nextSolvId + 1,
    repos := updateRepo m.repos repo_name (fun r => { r with solvables := r.solvables ++ [(s.id, s)] }) }

/-- The error raised out of `add_repo_units`: the
`ValueError('Unsupported unit type: ...', KeyError(type_id))` carries the
offending type id (inside the `KeyError` argument), and `conversionError`
stands for any exception escaping a factory. -/
inductive LoadError where
  | unsupportedUnitType (type_id : String)
  | conversionError
deriving DecidableEq, Repr

/-- The `for unit in units` loop of `add_repo_units`: look the factory up
by `unit.type_id` (a `KeyError` aborts the loop with the descriptive
`ValueError`), run it (the fresh solvable, complete or not, is already in
the repo when a factory raises), and `_register` the pair on success.  The
state at the raise point is returned alongside the error, matching the
in-place mutation the exception leaves behind. -/
def UnitSolvableMapping.add_units_loop (m : UnitSolvableMapping) (repo_name : String) :
    List CUnit → UnitSolvableMapping × Option LoadError
  | [] => (m, Option.none)
  | u :: rest =>
    match lookupFactory m.type_factory_mapping u.type_id with
    | Option.none => (m, some (LoadError.unsupportedUnitType u.type_id))
    | some factory =>
      match factory m.nextSolvId u with
      | Except.error sBroken =>
        (m.addSolvable repo_name sBroken, some LoadError.conversionError)
      | Except.ok s =>
        UnitSolvableMapping.add_units_loop
          ((m.addSolvable repo_name s)._register u s) repo_name rest

/-- Bump the internalize counter of the named repo's repodata. -/
def UnitSolvableMapping.internalize (m : UnitSolvableMapping) (repo_name : String) :
    UnitSolvableMapping :=
  let rs := updateRepo m.repos repo_name (fun r => { r with internalize_count := r.internalize_count + 1 })
  { m with repos := rs }

/-- `UnitSolvableMapping.add_repo_units(units, repo_name, installed)`:
ensure the repo, run the unit loop, and only when no exception was raised
mark the pool's installed repo and internalize the repodata. -/
def UnitSolvableMapping.add_repo_units (m : UnitSolvableMapping) (units : List CUnit)
    (repo_name : String) (installed : Bool) : UnitSolvableMapping × Option LoadError :=
  let m1 := m.ensure_repo repo_name
  match m1.add_units_loop repo_name units with
  | (m2, some e) => (m2, some e)
  | (m2, Option.none) =>
    let m3 := if installed then { m2 with installed := some repo_name } else m2
    (m3.internalize repo_name, Option.none)

/-- `Solver.type_factory_mapping`. -/
def Solver.type_factory_mapping : List (String × Factory) :=
  [("rpm", rpm_unit_solvable_factory)]

/-- An element of the `optimist` visited set (`cache`): the Python set
holds both solvables and dependency values. -/
inductive Item where
  | s (sid : Nat)
  | d (dp : Dep)
deriving DecidableEq, Repr

/-- The loaded pool as `optimist` sees it: the solvables (by id) and
`pool.whatprovides`, the provider lookup over all loaded repos. -/
structure PoolModel where
  solvs : List (Nat × Solvable)
  whatprovides : Dep → List Nat

/-- `solvable.lookup_deparray(solv.SOLVABLE_REQUIRES)`: the requires
deparray of the pool solvable with this id, in registration order. -/
def PoolModel.requiresOf (P : PoolModel) (sid : Nat) : List Dep :=
  match P.solvs.find? (fun p => p.1 = sid) with
  | some p => (p.2.deps.filter (fun kd => kd.1 = SOLVABLE_REQUIRES)).map Prod.snd
  | Option.none => []

/-- The visited set.  Only membership is ever tested, so an insertion-order
list models the Python set faithfully. -/
abbrev Cache := List Item

/-- Result of a complete `optimist` run: the yielded solvables in generator
order and the final visited set; `Option.none` means the fuel bound was
hit (fuel is an artifact of the embedding: each entry into the body of an
unvisited solvable or unvisited dependency consumes one unit). -/
abbrev OptRes := Option (List Nat × Cache)

/-- The solvable loop of `optimist` at one fuel level: `depsPrev` is the
dependency loop at the next-lower fuel level, used when an unvisited
solvable is expanded.  Mirrors the generator: skip a visited solvable;
otherwise mark it, yield it, walk its requires, and continue with the
visited set as the recursion left it (the Python `cache` is one shared
mutable set).  The `level` parameter and the `print` diagnostics of the
source only affect logging and are dropped. -/
def goAux (P : PoolModel) (depsPrev : List Dep → Cache → OptRes) :
    List Nat → Cache → OptRes
  | [], cache => some ([], cache)
  | sid :: rest, cache =>
    if Item.s sid ∈ cache then goAux P depsPrev rest cache
    else
      match depsPrev (P.requiresOf sid) (Item.s sid :: cache) with
      | Option.none => Option.none
      | some (ys, cache2) =>
        match goAux P depsPrev rest cache2 with
        | Option.none => Option.none
        | some (ys2, cache3) => some (sid :: (ys ++ ys2), cache3)

/-- The dependency loop of `optimist` at one fuel level: `goPrev` is the
solvable loop at the next-lower fuel level, used to recurse into
`pool.whatprovides(dep)` after marking an unvisited dep. -/
def depsAux (P : PoolModel) (goPrev : List Nat → Cache → OptRes) :
    List Dep → Cache → OptRes
  | [], cache => some ([], cache)
  | dp :: rest, cache =>
    if Item.d dp ∈ cache then depsAux P goPrev rest cache
    else
      match goPrev (P.whatprovides dp) (Item.d dp :: cache) with
      | Option.none => Option.none
      | some (ys, cache2) =>
        match depsAux P goPrev rest cache2 with
        | Option.none => Option.none
        | some (ys2, cache3) => some (ys ++ ys2, cache3)

/-- The two mutually recursive loops of `Solver.optimist`, stratified by
fuel so that the definition is structural (and so kernel-evaluable); at
fuel `0` any expansion of an unvisited item fails. -/
def optimistFuel (P : PoolModel) : Nat → (List Nat → Cache → OptRes) × (List Dep → Cache → OptRes)
  | 0 => (goAux P (fun _ _ => Option.none), depsAux P (fun _ _ => Option.none))
  | n + 1 =>
    let prev := optimistFuel P n
    (goAux P prev.2, depsAux P prev.1)

/-- A complete run of the `Solver.optimist` generator on a worklist of
solvables with visited set `cache`.  Because `cache=set()` is a mutable
default argument, the set is one object shared by every recursive and
every top-level call that does not pass a cache explicitly: successive
top-level calls are modelled by feeding the final cache of one run as the
initial cache of the next. -/
def optimistGo (P : PoolModel) (fuel : Nat) : List Nat → Cache → OptRes :=
  (optimistFuel P fuel).1

/-- The dependency loop of `optimistGo`, at top level. -/
def optimistDeps (P : PoolModel) (fuel : Nat) : List Dep → Cache → OptRes :=
  (optimistFuel P fuel).2

/-- `Item.reqsOf P` views a cached item as a solvable and returns its
requires deparray (empty for a dependency item); used to state that a
finite item universe is closed under requirement edges. -/
def Item.reqsOf (P : PoolModel) : Item → List Dep
  | Item.s sid => P.requiresOf sid
  | Item.d _ => []

/-- `Item.provsOf P` views a cached item as a dependency and returns its
providers (empty for a solvable item); used to state that a finite item
universe is closed under provider lookup. -/
def Item.provsOf (P : PoolModel) : Item → List Nat
  | Item.d dp => P.whatprovides dp
  | Item.s _ => []

/-! Concrete fixtures used by counterexamples and witnesses. -/

/-- An rpm unit that converts successfully. -/
def loadUnitGood : CUnit :=
  { emptyUnit with
    id := "u-good"
    type_id := "rpm"
    name := PyVal.str "foo"
    version := PyVal.str "1.0"
    release := PyVal.str "1" }

/-- A unit with a type id absent from `Solver.type_factory_mapping`. -/
def loadUnitBad : CUnit := { emptyUnit with id := "u-bad", type_id := "nonsense" }

/-- Another unknown-typed unit, for a separate load scenario. -/
def loadUnitBad2 : CUnit := { emptyUnit with id := "u-bad2", type_id := "weird" }

/-- A fresh solver-side mapping over `Solver.type_factory_mapping` (libsolv
allocates solvable ids from 1). -/
def loadM0 : UnitSolvableMapping :=
  ⟨Solver.type_factory_mapping, 1, [], Option.none, []⟩

/-- A unit used in registration scenarios. -/
def regUnit : CUnit := { emptyUnit with id := "u1" }

/-- Two distinct solvables sharing no id. -/
def regSolv1 : Solvable := emptySolvable 1

/-- See `regSolv1`. -/
def regSolv2 : Solvable := emptySolvable 2

/-- An empty mapping object with no factories (registration does not
consult them). -/
def regM0 : UnitSolvableMapping := ⟨[], 0, [], Option.none, []⟩

/-- An erratum unit with an EVR. -/
def erratumUnit : CUnit :=
  { emptyUnit with
    id := "e1"
    type_id := "erratum"
    errata_id := PyVal.str "RHSA-1"
    version := PyVal.str "1.0"
    release := PyVal.str "1" }

/-- The solvable `erratum_base` builds from `erratumUnit`. -/
def erratumSolv : Solvable :=
  { emptySolvable 5 with name := some "RHSA-1", evr := some "1.0-1", arch := some "noarch" }

/-- Solvable `A`, which requires `B` — one half of a requirement cycle. -/
def solvA : Solvable :=
  { emptySolvable 1 with name := some "A", deps := [(SOLVABLE_REQUIRES, Dep.dep "B")] }

/-- Solvable `B`, which requires `A` — the other half of the cycle. -/
def solvB : Solvable :=
  { emptySolvable 2 with name := some "B", deps := [(SOLVABLE_REQUIRES, Dep.dep "A")] }

/-- A pool whose requirement graph is the two-cycle `A ↔ B`. -/
def cycPool : PoolModel :=
  ⟨[(1, solvA), (2, solvB)],
    fun dp => if dp = Dep.dep "A" then [1] else if dp = Dep.dep "B" then [2] else []⟩

/-- The item universe of `cycPool`. -/
def cycU : Finset Item :=
  {Item.s 1, Item.s 2, Item.d (Dep.dep "A"), Item.d (Dep.dep "B")}

/-- The visited set after walking `cycPool` from solvable `1`. -/
def cycCache : Cache :=
  [Item.d (Dep.dep "A"), Item.s 2, Item.d (Dep.dep "B"), Item.s 1]

/-! Theorems settling the claims. -/

/-- C10: EVR construction treats a present-but-falsy epoch (integer `0` or
empty string) exactly like an absent epoch — the `epoch:` prefix is
omitted — and likewise a present-but-falsy release omits the `-release`
suffix; omission is decided by truthiness, not presence. -/
theorem evr_falsy_epoch_release (v r e : PyVal) :
    evr_unit_conversion (PyVal.int 0) v r = evr_unit_conversion PyVal.none v r ∧
    evr_unit_conversion (PyVal.str "") v r = evr_unit_conversion PyVal.none v r ∧
    evr_unit_conversion e v (PyVal.int 0) = evr_unit_conversion e v PyVal.none ∧
    evr_unit_conversion e v (PyVal.str "") = evr_unit_conversion e v PyVal.none := by
  refine ⟨?_, ?_, ?_, ?_⟩ <;> simp [evr_unit_conversion, PyVal.truthy]

/-- C3, counterexample: on a unit whose epoch is present but the empty
string (and version `1.0`, release `1`), the code omits the `epoch:`
prefix while the claim's presence-based reading (captured by
`evr_by_presence_spec`) keeps it, yielding `:1.0-1`. -/
theorem evr_presence_counterexample :
    evr_unit_conversion (PyVal.str "") (PyVal.str "1.0") (PyVal.str "1") = some "1.0-1" ∧
    evr_by_presence_spec (PyVal.str "") (PyVal.str "1.0") (PyVal.str "1") = some ":1.0-1" ∧
    evr_unit_conversion (PyVal.str "") (PyVal.str "1.0") (PyVal.str "1")
      ≠ evr_by_presence_spec (PyVal.str "") (PyVal.str "1.0") (PyVal.str "1") := by
  refine ⟨by decide, by decide, by decide⟩

/-- C3, amended: for every unit, the `evr_attribute` step assigns no EVR
attribute when `version` is `None` (or absent), and otherwise assigns
exactly `epoch:version-release` where the `epoch:` prefix and the
`-release` suffix are included iff the field value is truthy (so a falsy
present epoch or release is omitted together with its separator). -/
theorem evr_attribute_truthiness (s : Solvable) (u : CUnit) :
    evr_attribute s u = Except.ok (if u.version = PyVal.none then s
      else s.setattr "evr" ((if u.epoch.truthy then u.epoch.format ++ ":" else "")
        ++ u.version.format
        ++ (if u.release.truthy then "-" ++ u.release.format else ""))) := by
  by_cases h : u.version = PyVal.none <;>
    simp [evr_attribute, evr_unit_conversion, h]

/-- C1: at a rich dependency record (name beginning with `(`) in the
`requires` slot, `rpm_dependency_conversion` registers nothing on the
solvable — the parsed rich dep is discarded because `add_deparray` sits
inside the generic branch — while the same call with a generic name does
register the compiled expression under the requires keyname. -/
theorem rich_dependency_dropped :
    rpm_dependency_conversion (emptySolvable 1) "(foo >= 1.0 AND bar != 0.9)"
        PyVal.none Option.none "requires" Option.none = some (emptySolvable 1) ∧
    rpm_dependency_conversion (emptySolvable 1) "foo"
        PyVal.none Option.none "requires" Option.none
      = some (addDeparray (emptySolvable 1) SOLVABLE_REQUIRES (Dep.dep "foo")) := by
  refine ⟨by decide, by decide⟩

/-- C4: for a generic dependency (name not beginning with `(`) whose
keyname resolves, the compiled relational operator follows the fixed
mapping — `EQ`/`LT`/`GT` map one-to-one, `LE`/`GE` map to the disjunction
of `REL_EQ` with `REL_LT`/`REL_GT`, any other token is passed through to
the same-named `REL_*` engine operator — and absent flags compile to a
name-only dependency with no relational term. -/
theorem dependency_flags_mapping (s : Solvable) (n : String) (e : Option String)
    (a : String) (dk : Option Nat) (k : Nat)
    (hn : py_startswith n "(" = false) (hk : resolve_keyname dk a = some k) :
    rpm_dependency_conversion s n (PyVal.str "EQ") e a dk
      = some (addDeparray s k (Dep.rel (Dep.dep n) REL_EQ e)) ∧
    rpm_dependency_conversion s n (PyVal.str "LT") e a dk
      = some (addDeparray s k (Dep.rel (Dep.dep n) REL_LT e)) ∧
    rpm_dependency_conversion s n (PyVal.str "GT") e a dk
      = some (addDeparray s k (Dep.rel (Dep.dep n) REL_GT e)) ∧
    rpm_dependency_conversion s n (PyVal.str "LE") e a dk
      = some (addDeparray s k (Dep.rel (Dep.dep n) (REL_EQ ||| REL_LT) e)) ∧
    rpm_dependency_conversion s n (PyVal.str "GE") e a dk
      = some (addDeparray s k (Dep.rel (Dep.dep n) (REL_EQ ||| REL_GT) e)) ∧
    (∀ t r, t ∉ (["EQ", "LT", "GT", "LE", "GE"] : List String) → t ≠ "" →
      solv_REL_lookup t = some r →
      rpm_dependency_conversion s n (PyVal.str t) e a dk
        = some (addDeparray s k (Dep.rel (Dep.dep n) r e))) ∧
    rpm_dependency_conversion s n PyVal.none e a dk
      = some (addDeparray s k (Dep.dep n)) := by
  refine ⟨?_, ?_, ?_, ?_, ?_, ?_, ?_⟩
  · simp [rpm_dependency_conversion, hk, hn, rel_flags_of, PyVal.truthy]
  · simp [rpm_dependency_conversion, hk, hn, rel_flags_of, PyVal.truthy]
  · simp [rpm_dependency_conversion, hk, hn, rel_flags_of, PyVal.truthy]
  · simp [rpm_dependency_conversion, hk, hn, rel_flags_of, PyVal.truthy]
  · simp [rpm_dependency_conversion, hk, hn, rel_flags_of, PyVal.truthy]
  · intro t r ht ht' hr
    have h1 : t ≠ "EQ" := by intro hcon; exact ht (by simp [hcon])
    have h2 : t ≠ "LT" := by intro hcon; exact ht (by simp [hcon])
    have h3 : t ≠ "GT" := by intro hcon; exact ht (by simp [hcon])
    have h4 : t ≠ "LE" := by intro hcon; exact ht (by simp [hcon])
    have h5 : t ≠ "GE" := by intro hcon; exact ht (by simp [hcon])
    simp [rpm_dependency_conversion, hk, hn, rel_flags_of, PyVal.truthy,
      PyVal.format, h1, h2, h3, h4, h5, ht', hr]
  · simp [rpm_dependency_conversion, hk, hn, PyVal.truthy]

/-- Witness for C4: the mapping at a concrete generic record
(`foo EQ 1.0-1` in the `requires` slot). -/
theorem dependency_flags_mapping_witness :
    (py_startswith "foo" "(" = false) ∧
    (resolve_keyname Option.none "requires" = some SOLVABLE_REQUIRES) ∧
    rpm_dependency_conversion (emptySolvable 1) "foo" (PyVal.str "EQ")
        (some "1.0-1") "requires" Option.none
      = some (addDeparray (emptySolvable 1) SOLVABLE_REQUIRES
          (Dep.rel (Dep.dep "foo") REL_EQ (some "1.0-1"))) :=
  ⟨by decide, by decide,
    (dependency_flags_mapping (emptySolvable 1) "foo" (some "1.0-1") "requires"
      Option.none SOLVABLE_REQUIRES (by decide) (by decide)).1⟩

/-- `setdefault` always leaves its key bound. -/
theorem lookupM_setdefaultM_self (m : Mapping) (k : MKey) (v : MVal) :
    (lookupM (setdefaultM m k v) k).isSome := by
  unfold setdefaultM
  by_cases h : (lookupM m k).isSome
  · rw [if_pos h]; exact h
  · rw [if_neg h]
    unfold lookupM at h ⊢
    rw [List.find?_append]
    cases hm : m.find? (fun p => p.1 = k) with
    | none => simp [hm, List.find?_cons]
    | some x => simp [hm] at h

/-- `setdefault` never disturbs a key that is already bound. -/
theorem lookupM_setdefaultM_preserved (m : Mapping) (k : MKey) (v : MVal) (k' : MKey)
    (h : (lookupM m k').isSome) : lookupM (setdefaultM m k v) k' = lookupM m k' := by
  unfold setdefaultM
  by_cases hk : (lookupM m k).isSome
  · rw [if_pos hk]
  · rw [if_neg hk]
    unfold lookupM at h ⊢
    rw [List.find?_append]
    cases hm : m.find? (fun p => p.1 = k') with
    | none => simp [hm] at h
    | some x => simp [hm, Option.or]

/-- `setdefault` on a bound key is the identity. -/
theorem setdefaultM_of_present (m : Mapping) (k : MKey) (v : MVal)
    (h : (lookupM m k).isSome) : setdefaultM m k v = m := by
  unfold setdefaultM
  rw [if_pos h]

/-- C9, counterexample: after registering `(regUnit, regSolv1)`, the unit's
identity is present in the mapping, yet registering the pair
`(regUnit, regSolv2)` — a pair with "either identity already present" —
changes the mapping (the missing solvable-id direction is inserted), so
re-registration is not the claimed no-op. -/
theorem register_either_present_counterexample :
    (lookupM (regM0._register regUnit regSolv1).mapping (MKey.kUnit regUnit.id)).isSome ∧
    ((regM0._register regUnit regSolv1)._register regUnit regSolv2).mapping
      ≠ (regM0._register regUnit regSolv1).mapping := by
  refine ⟨by decide, by decide⟩

/-- C9, amended: re-registering the exact same `(unit, node)` pair is a
no-op (both lookup directions unchanged), and registration never updates
an already-bound key (per-key first-write-wins); but a pair sharing only
one identity with an earlier registration still inserts its other
direction, as the counterexample shows. -/
theorem register_idempotent_first_write_wins :
    (∀ (m : UnitSolvableMapping) (u : CUnit) (s : Solvable),
      ((m._register u s)._register u s).mapping = (m._register u s).mapping) ∧
    (∀ (m : UnitSolvableMapping) (u : CUnit) (s : Solvable) (k : MKey),
      (lookupM m.mapping k).isSome →
        lookupM (m._register u s).mapping k = lookupM m.mapping k) := by
  constructor
  · intro m u s
    simp only [UnitSolvableMapping._register]
    have h1 : (lookupM (setdefaultM (setdefaultM m.mapping (MKey.kUnit u.id) (MVal.vSolv s))
        (MKey.kSolv s.id) (MVal.vUnit u)) (MKey.kUnit u.id)).isSome := by
      rw [lookupM_setdefaultM_preserved _ _ _ _ (lookupM_setdefaultM_self _ _ _)]
      exact lookupM_setdefaultM_self _ _ _
    have h2 : (lookupM (setdefaultM (setdefaultM m.mapping (MKey.kUnit u.id) (MVal.vSolv s))
        (MKey.kSolv s.id) (MVal.vUnit u)) (MKey.kSolv s.id)).isSome :=
      lookupM_setdefaultM_self _ _ _
    rw [setdefaultM_of_present _ _ _ h1, setdefaultM_of_present _ _ _ h2]
  · intro m u s k h
    simp only [UnitSolvableMapping._register]
    have h1 := lookupM_setdefaultM_preserved m.mapping (MKey.kUnit u.id) (MVal.vSolv s) k h
    have h2 : (lookupM (setdefaultM m.mapping (MKey.kUnit u.id) (MVal.vSolv s)) k).isSome := by
      rw [h1]; exact h
    exact (lookupM_setdefaultM_preserved _ (MKey.kSolv s.id) (MVal.vUnit u) k h2).trans h1

/-- Witness for C9's amended claim: concrete idempotent re-registration and
a concrete preserved lookup. -/
theorem register_idempotent_first_write_wins_witness :
    ((regM0._register regUnit regSolv1)._register regUnit regSolv1).mapping
      = (regM0._register regUnit regSolv1).mapping ∧
    (lookupM (regM0._register regUnit regSolv1).mapping (MKey.kUnit "u1")).isSome ∧
    lookupM ((regM0._register regUnit regSolv1)._register regUnit regSolv2).mapping (MKey.kUnit "u1")
      = lookupM (regM0._register regUnit regSolv1).mapping (MKey.kUnit "u1") :=
  ⟨register_idempotent_first_write_wins.1 regM0 regUnit regSolv1,
   by decide,
   register_idempotent_first_write_wins.2 (regM0._register regUnit regSolv1) regUnit regSolv2
     (MKey.kUnit "u1") (by decide)⟩

/-- `ensure_repo` only touches the repo dict. -/
theorem ensure_repo_tfm (m : UnitSolvableMapping) (rn : String) :
    (m.ensure_repo rn).type_factory_mapping = m.type_factory_mapping := by
  unfold UnitSolvableMapping.ensure_repo
  split <;> rfl

/-- The unit loop never changes the factory table. -/
theorem add_units_loop_tfm (rn : String) : ∀ (us : List CUnit) (m : UnitSolvableMapping),
    ((m.add_units_loop rn us).1).type_factory_mapping = m.type_factory_mapping := by
  intro us
  induction us with
  | nil => intro m; rfl
  | cons u rest ih =>
    intro m
    cases hf : lookupFactory m.type_factory_mapping u.type_id with
    | none => simp only [UnitSolvableMapping.add_units_loop, hf]
    | some factory =>
      cases hr : factory m.nextSolvId u with
      | error sB => simp only [UnitSolvableMapping.add_units_loop, hf, hr]; rfl
      | ok s =>
        simp only [UnitSolvableMapping.add_units_loop, hf, hr]
        exact ih _

/-- Splitting the unit loop around a successfully loaded prefix. -/
theorem add_units_loop_append (rn : String) : ∀ (us vs : List CUnit) (m : UnitSolvableMapping),
    (m.add_units_loop rn us).2 = Option.none →
    m.add_units_loop rn (us ++ vs) = ((m.add_units_loop rn us).1).add_units_loop rn vs := by
  intro us
  induction us with
  | nil => intro vs m _; rfl
  | cons u rest ih =>
    intro vs m h
    cases hf : lookupFactory m.type_factory_mapping u.type_id with
    | none =>
      simp only [UnitSolvableMapping.add_units_loop, hf] at h
      simp at h
    | some factory =>
      cases hr : factory m.nextSolvId u with
      | error sB =>
        simp only [UnitSolvableMapping.add_units_loop, hf, hr] at h
        simp at h
      | ok s =>
        simp only [UnitSolvableMapping.add_units_loop, List.cons_append, hf, hr] at h ⊢
        exact ih vs _ h

/-- A load whose unit sequence contains, after a cleanly loading prefix, a
unit of unknown type: the result is exactly the state the prefix loop
left behind, paired with the descriptive error naming the offending type;
the installed designation and the internalize step are skipped. -/
theorem add_repo_units_unknown_split (m : UnitSolvableMapping) (us rest : List CUnit)
    (bad : CUnit) (rn : String) (inst : Bool)
    (h1 : ((m.ensure_repo rn).add_units_loop rn us).2 = Option.none)
    (h2 : lookupFactory m.type_factory_mapping bad.type_id = Option.none) :
    m.add_repo_units (us ++ bad :: rest) rn inst
      = (((m.ensure_repo rn).add_units_loop rn us).1,
         some (LoadError.unsupportedUnitType bad.type_id)) := by
  have htfm : (((m.ensure_repo rn).add_units_loop rn us).1).type_factory_mapping
      = m.type_factory_mapping := by
    rw [add_units_loop_tfm, ensure_repo_tfm]
  simp only [UnitSolvableMapping.add_repo_units]
  rw [add_units_loop_append rn us (bad :: rest) _ h1]
  simp only [UnitSolvableMapping.add_units_loop, htfm, h2]

/-- C2, counterexample: loading `[loadUnitGood, loadUnitBad]` fails on the
unknown second unit, yet the aborted load leaves partial state behind —
the Identity Registry has gained entries and the `repo1` graph holds the
first unit's solvable. -/
theorem add_repo_units_not_atomic :
    (loadM0.add_repo_units [loadUnitGood, loadUnitBad] "repo1" false).2
      = some (LoadError.unsupportedUnitType "nonsense") ∧
    (loadM0.add_repo_units [loadUnitGood, loadUnitBad] "repo1" false).1.mapping ≠ [] ∧
    ((loadM0.add_repo_units [loadUnitGood, loadUnitBad] "repo1" false).1.repos.find?
        (fun p => p.1 = "repo1")).map (fun p => p.2.solvables.length) = some 1 := by
  refine ⟨by decide, by decide, by decide⟩

/-- C2, amended: a load is not atomic.  When a unit of unknown type is hit
after a cleanly loading prefix, the load aborts with the descriptive
error, but every unit of the prefix stays loaded and registered (the
result state is exactly the prefix loop's state); only the remaining
units, the installed designation and the repodata internalization are
skipped. -/
theorem add_repo_units_partial_state_on_failure (m : UnitSolvableMapping)
    (us rest : List CUnit) (bad : CUnit) (rn : String) (inst : Bool)
    (h1 : ((m.ensure_repo rn).add_units_loop rn us).2 = Option.none)
    (h2 : lookupFactory m.type_factory_mapping bad.type_id = Option.none) :
    m.add_repo_units (us ++ bad :: rest) rn inst
      = (((m.ensure_repo rn).add_units_loop rn us).1,
         some (LoadError.unsupportedUnitType bad.type_id)) :=
  add_repo_units_unknown_split m us rest bad rn inst h1 h2

/-- Witness for C2's amended claim at the concrete failing load. -/
theorem add_repo_units_partial_state_on_failure_witness :
    (((loadM0.ensure_repo "repo1").add_units_loop "repo1" [loadUnitGood]).2 = Option.none) ∧
    (lookupFactory loadM0.type_factory_mapping loadUnitBad.type_id = Option.none) ∧
    loadM0.add_repo_units ([loadUnitGood] ++ loadUnitBad :: []) "repo1" false
      = (((loadM0.ensure_repo "repo1").add_units_loop "repo1" [loadUnitGood]).1,
         some (LoadError.unsupportedUnitType loadUnitBad.type_id)) :=
  ⟨by decide, rfl,
   add_repo_units_partial_state_on_failure loadM0 [loadUnitGood] [] loadUnitBad "repo1" false
     (by decide) rfl⟩

/-- C8: a unit whose type id is missing from the type-to-factory mapping
fails the whole load (after any cleanly loading prefix) with the
descriptive error naming the offending unit type — it is not silently
skipped. -/
theorem unknown_unit_type_fails_load (m : UnitSolvableMapping) (us rest : List CUnit)
    (bad : CUnit) (rn : String) (inst : Bool)
    (h1 : ((m.ensure_repo rn).add_units_loop rn us).2 = Option.none)
    (h2 : lookupFactory m.type_factory_mapping bad.type_id = Option.none) :
    (m.add_repo_units (us ++ bad :: rest) rn inst).2
      = some (LoadError.unsupportedUnitType bad.type_id) := by
  rw [add_repo_units_unknown_split m us rest bad rn inst h1 h2]

/-- Witness for C8 at a concrete one-unit load of an unknown type. -/
theorem unknown_unit_type_fails_load_witness :
    (((loadM0.ensure_repo "r2").add_units_loop "r2" ([] : List CUnit)).2 = Option.none) ∧
    (lookupFactory loadM0.type_factory_mapping loadUnitBad2.type_id = Option.none) ∧
    (loadM0.add_repo_units ([] ++ loadUnitBad2 :: []) "r2" true).2
      = some (LoadError.unsupportedUnitType loadUnitBad2.type_id) :=
  ⟨rfl, rfl,
   unknown_unit_type_fails_load loadM0 [] [] loadUnitBad2 "r2" true rfl rfl⟩

/-- C7: after the base erratum assembly produced a solvable with a name,
the wrapped factory adds exactly one extra `provides` edge: when the node
received a (nonempty) EVR, the edge is the relational expression equating
the node's own name with its own EVR under `REL_EQ`; with no EVR the edge
is the plain name. -/
theorem erratum_self_provides (sid : Nat) (u : CUnit) (s : Solvable) (n : String)
    (hbase : erratum_base sid u = Except.ok s) (hname : s.name = some n) :
    (∀ e : String, s.evr = some e → e ≠ "" →
      erratum_solvable_factory sid u
        = Except.ok { s with deps := s.deps ++ [(SOLVABLE_PROVIDES, Dep.rel (Dep.dep n) REL_EQ (some e))] }) ∧
    (s.evr = Option.none →
      erratum_solvable_factory sid u
        = Except.ok { s with deps := s.deps ++ [(SOLVABLE_PROVIDES, Dep.dep n)] }) := by
  constructor
  · intro e hevr he
    simp only [erratum_solvable_factory, nonproviding_sovlable_factory, hbase, hname,
      Solvable.getattr, hevr, addDeparray]
    simp [he]
  · intro hevr
    simp only [erratum_solvable_factory, nonproviding_sovlable_factory, hbase, hname,
      Solvable.getattr, hevr, addDeparray]
    simp

/-- Witness for C7: the concrete erratum unit `RHSA-1` with EVR `1.0-1`. -/
theorem erratum_self_provides_witness :
    (erratum_base 5 erratumUnit = Except.ok erratumSolv) ∧
    (erratumSolv.name = some "RHSA-1") ∧
    (erratumSolv.evr = some "1.0-1") ∧
    erratum_solvable_factory 5 erratumUnit
      = Except.ok { erratumSolv with
          deps := erratumSolv.deps ++ [(SOLVABLE_PROVIDES, Dep.rel (Dep.dep "RHSA-1") REL_EQ (some "1.0-1"))] } :=
  ⟨rfl, by decide, by decide,
   (erratum_self_provides 5 erratumUnit erratumSolv "RHSA-1" rfl (by decide)).1
     "1.0-1" (by decide) (by decide)⟩

/-- The walk invariant relating a run's initial visited set, its yields,
and its final visited set: the visited set only grows, no solvable is
yielded twice, and every yielded solvable was unvisited on entry and is
visited on exit. -/
def OptInv (cache : Cache) (ys : List Nat) (c' : Cache) : Prop :=
  (∀ i ∈ cache, i ∈ c') ∧ ys.Nodup ∧ (∀ y ∈ ys, Item.s y ∉ cache ∧ Item.s y ∈ c')

/-- The walk invariant holds for the solvable loop whenever it holds for
the lower-level dependency loop it expands through. -/
theorem goAux_inv (P : PoolModel) (depsPrev : List Dep → Cache → OptRes)
    (hdeps : ∀ ds cache ys c', depsPrev ds cache = some (ys, c') → OptInv cache ys c') :
    ∀ (ws : List Nat) (cache : Cache) (ys : List Nat) (c' : Cache),
      goAux P depsPrev ws cache = some (ys, c') → OptInv cache ys c' := by
  intro ws
  induction ws with
  | nil =>
    intro cache ys c' h
    simp only [goAux, Option.some.injEq, Prod.mk.injEq] at h
    obtain ⟨rfl, rfl⟩ := h
    exact ⟨fun i hi => hi, List.nodup_nil, fun y hy => absurd hy (List.not_mem_nil y)⟩
  | cons sid rest ih =>
    intro cache ys c' h
    by_cases hmem : Item.s sid ∈ cache
    · simp only [goAux, if_pos hmem] at h
      exact ih cache ys c' h
    · simp only [goAux, if_neg hmem] at h
      cases hd : depsPrev (P.requiresOf sid) (Item.s sid :: cache) with
      | none => simp only [hd] at h; exact Option.noConfusion h
      | some p =>
        obtain ⟨ys1, c2⟩ := p
        simp only [hd] at h
        cases hg : goAux P depsPrev rest c2 with
        | none => simp only [hg] at h; exact Option.noConfusion h
        | some q =>
          obtain ⟨ys2, c3⟩ := q
          simp only [hg, Option.some.injEq, Prod.mk.injEq] at h
          obtain ⟨rfl, rfl⟩ := h
          obtain ⟨sub1, nd1, hy1⟩ := hdeps _ _ _ _ hd
          obtain ⟨sub2, nd2, hy2⟩ := ih c2 ys2 c3 hg
          have hsub0 : ∀ i ∈ cache, i ∈ c2 := fun i hi => sub1 i (List.mem_cons_of_mem _ hi)
          refine ⟨fun i hi => sub2 i (hsub0 i hi), ?_, ?_⟩
          · refine List.nodup_cons.mpr ⟨?_, ?_⟩
            · intro hmem2
              rcases List.mem_append.mp hmem2 with h1 | h2
              · exact (hy1 sid h1).1 (List.mem_cons_self _ _)
              · exact (hy2 sid h2).1 (sub1 _ (List.mem_cons_self _ _))
            · refine List.Nodup.append nd1 nd2 ?_
              intro a ha1 ha2
              exact (hy2 a ha2).1 ((hy1 a ha1).2)
          · intro y hy
            rcases List.mem_cons.mp hy with rfl | hy'
            · exact ⟨hmem, sub2 _ (sub1 _ (List.mem_cons_self _ _))⟩
            · rcases List.mem_append.mp hy' with h1 | h2
              · exact ⟨fun hc => (hy1 y h1).1 (List.mem_cons_of_mem _ hc), sub2 _ (hy1 y h1).2⟩
              · exact ⟨fun hc => (hy2 y h2).1 (hsub0 _ hc), (hy2 y h2).2⟩

/-- The walk invariant holds for the dependency loop whenever it holds for
the lower-level solvable loop it recurses into. -/
theorem depsAux_inv (P : PoolModel) (goPrev : List Nat → Cache → OptRes)
    (hgo : ∀ ws cache ys c', goPrev ws cache = some (ys, c') → OptInv cache ys c') :
    ∀ (ds : List Dep) (cache : Cache) (ys : List Nat) (c' : Cache),
      depsAux P goPrev ds cache = some (ys, c') → OptInv cache ys c' := by
  intro ds
  induction ds with
  | nil =>
    intro cache ys c' h
    simp only [depsAux, Option.some.injEq, Prod.mk.injEq] at h
    obtain ⟨rfl, rfl⟩ := h
    exact ⟨fun i hi => hi, List.nodup_nil, fun y hy => absurd hy (List.not_mem_nil y)⟩
  | cons dp rest ih =>
    intro cache ys c' h
    by_cases hmem : Item.d dp ∈ cache
    · simp only [depsAux, if_pos hmem] at h
      exact ih cache ys c' h
    · simp only [depsAux, if_neg hmem] at h
      cases hg : goPrev (P.whatprovides dp) (Item.d dp :: cache) with
      | none => simp only [hg] at h; exact Option.noConfusion h
      | some p =>
        obtain ⟨ys1, c2⟩ := p
        simp only [hg] at h
        cases hdd : depsAux P goPrev rest c2 with
        | none => simp only [hdd] at h; exact Option.noConfusion h
        | some q =>
          obtain ⟨ys2, c3⟩ := q
          simp only [hdd, Option.some.injEq, Prod.mk.injEq] at h
          obtain ⟨rfl, rfl⟩ := h
          obtain ⟨sub1, nd1, hy1⟩ := hgo _ _ _ _ hg
          obtain ⟨sub2, nd2, hy2⟩ := ih c2 ys2 c3 hdd
          have hsub0 : ∀ i ∈ cache, i ∈ c2 := fun i hi => sub1 i (List.mem_cons_of_mem _ hi)
          refine ⟨fun i hi => sub2 i (hsub0 i hi), ?_, ?_⟩
          · refine List.Nodup.append nd1 nd2 ?_
            intro a ha1 ha2
            exact (hy2 a ha2).1 ((hy1 a ha1).2)
          · intro y hy
            rcases List.mem_append.mp hy with h1 | h2
            · exact ⟨fun hc => (hy1 y h1).1 (List.mem_cons_of_mem _ hc), sub2 _ (hy1 y h1).2⟩
            · exact ⟨fun hc => (hy2 y h2).1 (hsub0 _ hc), (hy2 y h2).2⟩

/-- The walk invariant, at every fuel level, for both loops. -/
theorem optimist_inv (P : PoolModel) : ∀ fuel : Nat,
    (∀ ws cache ys c', optimistGo P fuel ws cache = some (ys, c') → OptInv cache ys c') ∧
    (∀ ds cache ys c', optimistDeps P fuel ds cache = some (ys, c') → OptInv cache ys c') := by
  intro fuel
  induction fuel with
  | zero =>
    constructor
    · exact goAux_inv P _ (fun ds cache ys c' h' => absurd h' (by simp))
    · exact depsAux_inv P _ (fun ws cache ys c' h' => absurd h' (by simp))
  | succ n ih =>
    constructor
    · exact goAux_inv P _ ih.2
    · exact depsAux_inv P _ ih.1

/-- Growing the visited set cannot increase the count of unvisited
universe items. -/
theorem filter_notmem_card_mono (U : Finset Item) (c1 c2 : Cache)
    (h : ∀ i ∈ c1, i ∈ c2) :
    (U.filter (fun i => i ∉ c2)).card ≤ (U.filter (fun i => i ∉ c1)).card := by
  apply Finset.card_le_card
  intro i hi
  rw [Finset.mem_filter] at hi ⊢
  exact ⟨hi.1, fun hc => hi.2 (h i hc)⟩

/-- Marking an unvisited universe item strictly decreases the count of
unvisited universe items. -/
theorem filter_notmem_card_insert (U : Finset Item) (cache : Cache) (it : Item)
    (hU : it ∈ U) (hni : it ∉ cache) :
    (U.filter (fun i => i ∉ (it :: cache))).card < (U.filter (fun i => i ∉ cache)).card := by
  have hsub : (U.filter (fun i => i ∉ (it :: cache))) ⊆ (U.filter (fun i => i ∉ cache)) := by
    intro i hi
    rw [Finset.mem_filter] at hi ⊢
    exact ⟨hi.1, fun hc => hi.2 (List.mem_cons_of_mem _ hc)⟩
  apply Finset.card_lt_card
  rw [Finset.ssubset_iff_of_subset hsub]
  refine ⟨it, ?_, ?_⟩
  · rw [Finset.mem_filter]; exact ⟨hU, hni⟩
  · exact fun hmem => (Finset.mem_filter.mp hmem).2 (List.mem_cons_self it cache)

/-- The solvable loop completes whenever its seeds lie in a universe `U`
closed under the walk and the fuel exceeds the number of unvisited
universe items. -/
theorem goAux_total (P : PoolModel) (U : Finset Item) (n : Nat)
    (depsPrev : List Dep → Cache → OptRes)
    (hreq : ∀ sid, Item.s sid ∈ U → ∀ dp ∈ P.requiresOf sid, Item.d dp ∈ U)
    (hdeps_inv : ∀ ds cache ys c', depsPrev ds cache = some (ys, c') → OptInv cache ys c')
    (hdeps_total : ∀ ds cache, (∀ dp ∈ ds, Item.d dp ∈ U) →
      (U.filter (fun i => i ∉ cache)).card < n → (depsPrev ds cache).isSome) :
    ∀ (ws : List Nat) (cache : Cache), (∀ sid ∈ ws, Item.s sid ∈ U) →
      (U.filter (fun i => i ∉ cache)).card < n + 1 → (goAux P depsPrev ws cache).isSome := by
  intro ws
  induction ws with
  | nil => intro cache _ _; simp [goAux]
  | cons sid rest ih =>
    intro cache hws hcard
    by_cases hmem : Item.s sid ∈ cache
    · simp only [goAux, if_pos hmem]
      exact ih cache (fun x hx => hws x (List.mem_cons_of_mem _ hx)) hcard
    · simp only [goAux, if_neg hmem]
      have hsU : Item.s sid ∈ U := hws sid (List.mem_cons_self _ _)
      have hlt := filter_notmem_card_insert U cache (Item.s sid) hsU hmem
      have hd := hdeps_total (P.requiresOf sid) (Item.s sid :: cache)
        (fun dp hdp => hreq sid hsU dp hdp) (by omega)
      cases hdval : depsPrev (P.requiresOf sid) (Item.s sid :: cache) with
      | none => rw [hdval] at hd; simp at hd
      | some p =>
        obtain ⟨ys1, c2⟩ := p
        simp only [hdval]
        have hmono : ∀ i ∈ cache, i ∈ c2 :=
          fun i hi => (hdeps_inv _ _ _ _ hdval).1 i (List.mem_cons_of_mem _ hi)
        have hcard2 : (U.filter (fun i => i ∉ c2)).card < n + 1 :=
          lt_of_le_of_lt (filter_notmem_card_mono U cache c2 hmono) hcard
        have hg := ih c2 (fun x hx => hws x (List.mem_cons_of_mem _ hx)) hcard2
        cases hgval : goAux P depsPrev rest c2 with
        | none => rw [hgval] at hg; simp at hg
        | some q =>
          obtain ⟨ys2, c3⟩ := q
          simp only [hgval, Option.isSome_some]

/-- The dependency loop completes under the mirrored conditions. -/
theorem depsAux_total (P : PoolModel) (U : Finset Item) (n : Nat)
    (goPrev : List Nat → Cache → OptRes)
    (hprov : ∀ dp, Item.d dp ∈ U → ∀ sid ∈ P.whatprovides dp, Item.s sid ∈ U)
    (hgo_inv : ∀ ws cache ys c', goPrev ws cache = some (ys, c') → OptInv cache ys c')
    (hgo_total : ∀ ws cache, (∀ sid ∈ ws, Item.s sid ∈ U) →
      (U.filter (fun i => i ∉ cache)).card < n → (goPrev ws cache).isSome) :
    ∀ (ds : List Dep) (cache : Cache), (∀ dp ∈ ds, Item.d dp ∈ U) →
      (U.filter (fun i => i ∉ cache)).card < n + 1 → (depsAux P goPrev ds cache).isSome := by
  intro ds
  induction ds with
  | nil => intro cache _ _; simp [depsAux]
  | cons dp rest ih =>
    intro cache hds hcard
    by_cases hmem : Item.d dp ∈ cache
    · simp only [depsAux, if_pos hmem]
      exact ih cache (fun x hx => hds x (List.mem_cons_of_mem _ hx)) hcard
    · simp only [depsAux, if_neg hmem]
      have hdU : Item.d dp ∈ U := hds dp (List.mem_cons_self _ _)
      have hlt := filter_notmem_card_insert U cache (Item.d dp) hdU hmem
      have hg := hgo_total (P.whatprovides dp) (Item.d dp :: cache)
        (fun sid hsid => hprov dp hdU sid hsid) (by omega)
      cases hgval : goPrev (P.whatprovides dp) (Item.d dp :: cache) with
      | none => rw [hgval] at hg; simp at hg
      | some p =>
        obtain ⟨ys1, c2⟩ := p
        simp only [hgval]
        have hmono : ∀ i ∈ cache, i ∈ c2 :=
          fun i hi => (hgo_inv _ _ _ _ hgval).1 i (List.mem_cons_of_mem _ hi)
        have hcard2 : (U.filter (fun i => i ∉ c2)).card < n + 1 :=
          lt_of_le_of_lt (filter_notmem_card_mono U cache c2 hmono) hcard
        have hdd := ih c2 (fun x hx => hds x (List.mem_cons_of_mem _ hx)) hcard2
        cases hddval : depsAux P goPrev rest c2 with
        | none => rw [hddval] at hdd; simp at hdd
        | some q =>
          obtain ⟨ys2, c3⟩ := q
          simp only [hddval, Option.isSome_some]

/-- Both loops complete, at every fuel level exceeding the number of
unvisited universe items. -/
theorem optimist_total (P : PoolModel) (U : Finset Item)
    (hreq : ∀ sid, Item.s sid ∈ U → ∀ dp ∈ P.requiresOf sid, Item.d dp ∈ U)
    (hprov : ∀ dp, Item.d dp ∈ U → ∀ sid ∈ P.whatprovides dp, Item.s sid ∈ U) :
    ∀ fuel : Nat,
      (∀ ws cache, (∀ sid ∈ ws, Item.s sid ∈ U) →
        (U.filter (fun i => i ∉ cache)).card < fuel → (optimistGo P fuel ws cache).isSome) ∧
      (∀ ds cache, (∀ dp ∈ ds, Item.d dp ∈ U) →
        (U.filter (fun i => i ∉ cache)).card < fuel → (optimistDeps P fuel ds cache).isSome) := by
  intro fuel
  induction fuel with
  | zero => exact ⟨fun _ _ _ h => absurd h (by omega), fun _ _ _ h => absurd h (by omega)⟩
  | succ n ih =>
    constructor
    · exact goAux_total P U n _ hreq (optimist_inv P n).2 ih.2
    · exact depsAux_total P U n _ hprov (optimist_inv P n).1 ih.1

/-- C5: over any loaded graph whose items (seeds, requirement edges,
providers) stay inside a finite universe `U` — cyclic requirement graphs
included — a single top-level `optimist` walk started on an empty visited
set terminates within fuel `U.card + 1` and never yields the same node
twice, because solvables and dependency edges are marked in the one
visited set shared across the whole walk before recursing into
providers. -/
theorem optimist_terminates_no_repeat (P : PoolModel) (U : Finset Item) (ws : List Nat)
    (hseeds : ∀ sid ∈ ws, Item.s sid ∈ U)
    (hreq : ∀ i ∈ U, ∀ dp ∈ Item.reqsOf P i, Item.d dp ∈ U)
    (hprov : ∀ i ∈ U, ∀ sid ∈ Item.provsOf P i, Item.s sid ∈ U) :
    ∃ ys c', optimistGo P (U.card + 1) ws [] = some (ys, c') ∧ ys.Nodup := by
  have hreq' : ∀ sid, Item.s sid ∈ U → ∀ dp ∈ P.requiresOf sid, Item.d dp ∈ U :=
    fun sid hs dp hdp => hreq (Item.s sid) hs dp hdp
  have hprov' : ∀ dp, Item.d dp ∈ U → ∀ sid ∈ P.whatprovides dp, Item.s sid ∈ U :=
    fun dp hd sid hs => hprov (Item.d dp) hd sid hs
  have hcard : (U.filter (fun i => i ∉ ([] : Cache))).card < U.card + 1 := by
    have hU : U.filter (fun i => i ∉ ([] : Cache)) = U :=
      Finset.filter_true_of_mem (fun i _ => List.not_mem_nil i)
    rw [hU]
    omega
  have htot := (optimist_total P U hreq' hprov' (U.card + 1)).1 ws [] hseeds hcard
  obtain ⟨res, hres⟩ := Option.isSome_iff_exists.mp htot
  obtain ⟨ys, c'⟩ := res
  exact ⟨ys, c', hres, ((optimist_inv P (U.card + 1)).1 ws [] ys c' hres).2.1⟩

/-- Witness for C5: the two-node requirement cycle `A ↔ B` with its item
universe; the walk from solvable `1` completes and yields without
repetition. -/
theorem optimist_terminates_no_repeat_witness :
    (∀ sid ∈ ([1] : List Nat), Item.s sid ∈ cycU) ∧
    (∀ i ∈ cycU, ∀ dp ∈ Item.reqsOf cycPool i, Item.d dp ∈ cycU) ∧
    (∀ i ∈ cycU, ∀ sid ∈ Item.provsOf cycPool i, Item.s sid ∈ cycU) ∧
    (∃ ys c', optimistGo cycPool (cycU.card + 1) [1] [] = some (ys, c') ∧ ys.Nodup) :=
  ⟨by decide, by decide, by decide,
   optimist_terminates_no_repeat cycPool cycU [1] (by decide) (by decide) (by decide)⟩

/-- C6: `optimist` is not a pure function of its arguments across
independent invocations.  The visited set is the mutable default argument
`cache=set()`, never reset, so a second top-level call that does not pass
an explicit cache starts from the final visited set of the first; every
node yielded by the first call is then suppressed from (never yielded by)
the second call, however unrelated the two queries are. -/
theorem optimist_cache_shared_across_calls (P : PoolModel) (f1 f2 : Nat)
    (ws1 ws2 : List Nat) (c0 : Cache) (ys1 : List Nat) (c1 : Cache)
    (ys2 : List Nat) (c2 : Cache)
    (h1 : optimistGo P f1 ws1 c0 = some (ys1, c1))
    (h2 : optimistGo P f2 ws2 c1 = some (ys2, c2)) :
    ∀ y ∈ ys1, y ∉ ys2 := by
  intro y hy hy2
  have i1 := (optimist_inv P f1).1 ws1 c0 ys1 c1 h1
  have i2 := (optimist_inv P f2).1 ws2 c1 ys2 c2 h2
  exact (i2.2.2 y hy2).1 (i1.2.2 y hy).2

/-- Witness for C6: re-running the very same query on the cyclic pool
yields `[1, 2]` the first time and nothing at all the second time. -/
theorem optimist_cache_shared_across_calls_witness :
    (optimistGo cycPool 5 [1] [] = some ([1, 2], cycCache)) ∧
    (optimistGo cycPool 5 [1] cycCache = some ([], cycCache)) ∧
    (∀ y ∈ ([1, 2] : List Nat), y ∉ ([] : List Nat)) :=
  ⟨by decide, by decide,
   optimist_cache_shared_across_calls cycPool 5 5 [1] [1] [] [1, 2] cycCache [] cycCache
     (by decide) (by decide)⟩

end PulpSolv
